import Mathlib

/-!
Shallow embedding of the SolanaArbitrageBot opportunity pipeline.

Modelling conventions, applied uniformly:
* `rust_decimal::Decimal` values are modelled as exact rationals (`Rat`);
  every Decimal operation appearing in the embedded code (comparison,
  addition, subtraction, division by a guarded nonzero denominator) is
  exact at these magnitudes.
* `chrono::DateTime<Utc>` instants are modelled as `Int` (seconds since an
  arbitrary epoch); `chrono::Duration::seconds n` is the integer `n`, and
  `Duration::num_hours` is truncating division by 3600 (`Int.tdiv`, which
  rounds toward zero exactly as chrono does).
* `Pubkey` values are modelled as `Nat`; token identity is the mint key,
  as in the source (`base_token.mint == self.token_a.mint`).
* Generated UUIDs are externally supplied fresh `String` arguments.
* `HashMap<String, _>` fields are association lists `List (String × _)`;
  `VecDeque` is a `List` whose head is the front of the deque.
* A function that reads the ambient clock receives the reading as an
  explicit `now : Int` argument (one reading per call, covering the
  adjacent `Utc::now()` calls inside a single constructor body).
* Async channels are modelled by accumulating the sent messages in the
  state; `Result<()>` is `Except String Unit`.
-/

namespace SolArb

/-- dex/mod.rs: the supported DEX kinds. -/
inductive DexType where
  | Raydium
  | Meteora
  | Whirlpool
  | Pump
deriving DecidableEq, Repr

/-- models/token.rs: a token; identity is the mint address (modelled as `Nat`). -/
structure Token where
  mint : Nat
  symbol : String
  name : String
  decimals : Nat
  logo_uri : Option String
  coingecko_id : Option String
deriving DecidableEq, Repr

/-- models/arbitrage.rs: RiskScore, `derive(PartialOrd, Ord)` gives
Low < Medium < High < Critical in declaration order. -/
inductive RiskScore where
  | Low
  | Medium
  | High
  | Critical
deriving DecidableEq, Repr

/-- Numeric rank of a `RiskScore`; the derived Rust `Ord` compares by this rank. -/
def RiskScore.toNat : RiskScore → Nat
  | .Low => 0
  | .Medium => 1
  | .High => 2
  | .Critical => 3

/-- models/arbitrage.rs: OpportunityStatus. -/
inductive OpportunityStatus where
  | Pending
  | Executing
  | Completed
  | Failed
  | Expired
  | Cancelled
deriving DecidableEq, Repr

/-- models/arbitrage.rs: ExecutionStatus. -/
inductive ExecutionStatus where
  | Pending
  | Executing
  | Submitted
  | Confirmed
  | Failed
  | Cancelled
deriving DecidableEq, Repr

/-- models/pool.rs: `Pool`. Reserves and fee are Decimal (here `Rat`),
`last_updated` is a clock instant (`Int` seconds). -/
structure Pool where
  id : String
  dex_type : DexType
  token_a : Token
  token_b : Token
  reserve_a : Rat
  reserve_b : Rat
  fee_rate : Rat
  pool_address : Nat
  authority : Nat
  program_id : Nat
  version : String
  is_active : Bool
  last_updated : Int
deriving DecidableEq, Repr

/-- models/pool.rs lines 109-125: `Pool::get_price`. Price of the base
token: `reserve_a / reserve_b` when the base is `token_a` (guarded by
`reserve_b > 0`), `reserve_b / reserve_a` when the base is `token_b`
(guarded by `reserve_a > 0`), `None` otherwise. -/
def Pool.get_price (p : Pool) (base_token : Token) : Option Rat :=
  if base_token.mint = p.token_a.mint then
    if p.reserve_b > 0 then some (p.reserve_a / p.reserve_b) else none
  else if base_token.mint = p.token_b.mint then
    if p.reserve_a > 0 then some (p.reserve_b / p.reserve_a) else none
  else none

/-- models/arbitrage.rs: `ArbitrageOpportunity`. -/
structure ArbitrageOpportunity where
  id : String
  base_token : Token
  quote_token : Token
  buy_pool : Pool
  sell_pool : Pool
  buy_price : Rat
  sell_price : Rat
  price_difference : Rat
  profit_percentage : Rat
  estimated_profit : Rat
  estimated_fees : Rat
  net_profit : Rat
  risk_score : RiskScore
  timestamp : Int
  expiry : Int
  status : OpportunityStatus
deriving DecidableEq, Repr

/-- models/arbitrage.rs lines 163-185: the liquidity term of
`calculate_risk_score` for one pool: `+2` when either reserve is below 1000. -/
def liquidityPoints (p : Pool) : Nat :=
  if p.reserve_a < 1000 ∨ p.reserve_b < 1000 then 2 else 0

/-- models/arbitrage.rs lines 174-179: the profit term of
`calculate_risk_score`: `+1` below 0.5%, `+3` above 5%. -/
def profitPoints (profit_percentage : Rat) : Nat :=
  if profit_percentage < 5 / 1000 then 1
  else if profit_percentage > 5 / 100 then 3
  else 0

/-- models/arbitrage.rs lines 181-185: the staleness term of
`calculate_risk_score`: `+1` when the buy pool's last update is more than
24 whole hours old (`num_hours` truncates toward zero, as `Int.tdiv`). -/
def stalenessPoints (now : Int) (buy_pool : Pool) : Nat :=
  if Int.tdiv (now - buy_pool.last_updated) 3600 > 24 then 1 else 0

/-- The `u8` running total of models/arbitrage.rs lines 164-185 (maximum
possible value 2+2+3+1 = 8, so the `u8` arithmetic never wraps). -/
def riskPoints (now : Int) (buy_pool sell_pool : Pool) (profit_percentage : Rat) : Nat :=
  liquidityPoints buy_pool + liquidityPoints sell_pool
    + profitPoints profit_percentage + stalenessPoints now buy_pool

/-- models/arbitrage.rs lines 187-192: the final bucket match
`0..=2 => Low, 3..=4 => Medium, 5..=6 => High, _ => Critical`. -/
def toRiskScore (t : Nat) : RiskScore :=
  if t ≤ 2 then .Low
  else if t ≤ 4 then .Medium
  else if t ≤ 6 then .High
  else .Critical

/-- models/arbitrage.rs lines 163-193: `ArbitrageOpportunity::calculate_risk_score`. -/
def ArbitrageOpportunity.calculate_risk_score
    (now : Int) (buy_pool sell_pool : Pool) (profit_percentage : Rat) : RiskScore :=
  toRiskScore (riskPoints now buy_pool sell_pool profit_percentage)

/-- models/arbitrage.rs lines 116-161: `ArbitrageOpportunity::new`.
`now` is the clock reading, `id` the generated UUID. -/
def ArbitrageOpportunity.new
    (now : Int) (id : String) (base_token quote_token : Token)
    (buy_pool sell_pool : Pool) : ArbitrageOpportunity :=
  let buy_price := (buy_pool.get_price base_token).getD 0
  let sell_price := (sell_pool.get_price base_token).getD 0
  let price_difference := if sell_price > buy_price then sell_price - buy_price else 0
  let profit_percentage := if buy_price > 0 then price_difference / buy_price else 0
  let estimated_profit : Rat := 0
  let estimated_fees : Rat := 0
  let net_profit := estimated_profit - estimated_fees
  let risk_score := ArbitrageOpportunity.calculate_risk_score now buy_pool sell_pool profit_percentage
  { id := id
    base_token := base_token
    quote_token := quote_token
    buy_pool := buy_pool
    sell_pool := sell_pool
    buy_price := buy_price
    sell_price := sell_price
    price_difference := price_difference
    profit_percentage := profit_percentage
    estimated_profit := estimated_profit
    estimated_fees := estimated_fees
    net_profit := net_profit
    risk_score := risk_score
    timestamp := now
    expiry := now + 30
    status := .Pending }

/-- models/arbitrage.rs lines 195-197: `is_profitable`:
`net_profit > min_profit_threshold`. -/
def ArbitrageOpportunity.is_profitable
    (o : ArbitrageOpportunity) (min_profit_threshold : Rat) : Bool :=
  decide (o.net_profit > min_profit_threshold)

/-- models/arbitrage.rs lines 199-201: `is_expired`: `Utc::now() > self.expiry`. -/
def ArbitrageOpportunity.is_expired (o : ArbitrageOpportunity) (now : Int) : Bool :=
  decide (now > o.expiry)

/-- models/arbitrage.rs: `ArbitrageStrategy`. -/
structure ArbitrageStrategy where
  id : String
  name : String
  description : String
  min_profit_threshold : Rat
  max_slippage : Rat
  max_price_impact : Rat
  min_liquidity : Rat
  supported_dexes : List DexType
  risk_tolerance : RiskScore
  is_active : Bool
  created_at : Int
  updated_at : Int
deriving DecidableEq, Repr

/-- models/arbitrage.rs lines 280-285: `ArbitrageStrategy::is_opportunity_suitable`:
profit threshold, risk tolerance (derived `Ord`), and membership of both
pools' DEX types in `supported_dexes`. The function performs no reserve /
`min_liquidity` check. -/
def ArbitrageStrategy.is_opportunity_suitable
    (s : ArbitrageStrategy) (o : ArbitrageOpportunity) : Bool :=
  decide (o.profit_percentage ≥ s.min_profit_threshold)
    && decide (o.risk_score.toNat ≤ s.risk_tolerance.toNat)
    && s.supported_dexes.contains o.buy_pool.dex_type
    && s.supported_dexes.contains o.sell_pool.dex_type

/-- models/arbitrage.rs: `ArbitrageRoute` (here with the generated UUID as
an explicit `id` argument in the constructor below). -/
structure ArbitrageRoute where
  id : String
  pools : List Pool
  input_token : Token
  output_token : Token
  input_amount : Rat
  expected_output : Rat
  actual_output : Rat
  fees : List Rat
  total_fees : Rat
  price_impact : Rat
  execution_time : Option Int
deriving DecidableEq, Repr

/-- models/arbitrage.rs lines 209-223: `ArbitrageRoute::new`. -/
def ArbitrageRoute.new (id : String) (pools : List Pool)
    (input_token output_token : Token) (input_amount : Rat) : ArbitrageRoute :=
  { id := id
    pools := pools
    input_token := input_token
    output_token := output_token
    input_amount := input_amount
    expected_output := 0
    actual_output := 0
    fees := []
    total_fees := 0
    price_impact := 0
    execution_time := none }

/-- models/arbitrage.rs: `ArbitrageExecution`. -/
structure ArbitrageExecution where
  id : String
  opportunity : ArbitrageOpportunity
  route : ArbitrageRoute
  transaction_signature : Option String
  execution_status : ExecutionStatus
  gas_used : Option Nat
  gas_price : Option Nat
  total_cost : Option Rat
  actual_profit : Option Rat
  execution_time : Int
  error_message : Option String
deriving DecidableEq, Repr

/-- Association-list update mirroring `HashMap::insert`: the key is bound
to the new value and any previous binding for it disappears. -/
def insertAssoc {α : Type} (l : List (String × α)) (k : String) (v : α) :
    List (String × α) :=
  (k, v) :: l.filter fun p => p.1 ≠ k

/-- Association-list removal mirroring `HashMap::remove` on unique keys. -/
def removeKey {α : Type} (l : List (String × α)) (k : String) :
    List (String × α) :=
  l.filter fun p => p.1 ≠ k

/-- services/memory_store.rs lines 83-86: `min_by_key` over the
opportunities map, keyed by creation timestamp. Ties are broken by
iteration position (the `HashMap` order is arbitrary; every result
returned is an entry achieving the minimal timestamp). -/
def minByTimestamp :
    List (String × ArbitrageOpportunity) → Option (String × ArbitrageOpportunity)
  | [] => none
  | p :: rest =>
    match minByTimestamp rest with
    | none => some p
    | some q => if q.2.timestamp < p.2.timestamp then some q else some p

/-- services/memory_store.rs: the `StoreMetrics` counters. -/
structure StoreMetrics where
  total_opportunities : Nat
  total_executions : Nat
  successful_executions : Nat
  total_profit : Rat
  total_fees : Rat
deriving DecidableEq, Repr

/-- services/memory_store.rs: the mutable state of a `MemoryStore`
(opportunities map, strategies map, execution deque with its front at the
list head, metrics, and the two capacity ceilings). -/
structure MemoryStoreState where
  opportunities : List (String × ArbitrageOpportunity)
  strategies : List (String × ArbitrageStrategy)
  executions : List ArbitrageExecution
  metrics : StoreMetrics
  max_opportunities : Nat
  max_executions : Nat
deriving DecidableEq, Repr

/-- services/memory_store.rs lines 78-100: `MemoryStore::save_opportunity`.
At capacity the entry with the minimal timestamp (if any) is removed, then
the opportunity is inserted by id; the metrics counter is bumped; every
path returns `Ok(())`. -/
def MemoryStore.save_opportunity (st : MemoryStoreState)
    (o : ArbitrageOpportunity) : MemoryStoreState × Except String Unit :=
  let opps :=
    if st.opportunities.length ≥ st.max_opportunities then
      match minByTimestamp st.opportunities with
      | some p => removeKey st.opportunities p.1
      | none => st.opportunities
    else st.opportunities
  ({ st with
      opportunities := insertAssoc opps o.id o
      metrics := { st.metrics with
        total_opportunities := st.metrics.total_opportunities + 1 } },
   Except.ok ())

/-- services/memory_store.rs lines 165-192: `MemoryStore::save_execution`.
At capacity the front of the deque is popped, the record is pushed at the
back, the aggregate counters are updated; every path returns `Ok(())`. -/
def MemoryStore.save_execution (st : MemoryStoreState)
    (e : ArbitrageExecution) : MemoryStoreState × Except String Unit :=
  let ex0 :=
    if st.executions.length ≥ st.max_executions then st.executions.tail
    else st.executions
  let m := st.metrics
  let m := { m with total_executions := m.total_executions + 1 }
  let m :=
    if e.execution_status = ExecutionStatus.Confirmed then
      { m with successful_executions := m.successful_executions + 1 }
    else m
  let m :=
    match e.actual_profit with
    | some profit => { m with total_profit := m.total_profit + profit }
    | none => m
  let m :=
    match e.total_cost with
    | some fees => { m with total_fees := m.total_fees + fees }
    | none => m
  ({ st with executions := ex0 ++ [e], metrics := m }, Except.ok ())

/-- executor.rs: terminal execution statuses (the `matches!` of
`cleanup_completed_executions` and the second arm of
`monitor_active_executions`). -/
def ExecutionStatus.isTerminal : ExecutionStatus → Bool
  | .Confirmed => true
  | .Failed => true
  | .Cancelled => true
  | _ => false

/-- executor.rs: the mutable state of an `ArbitrageExecutor`
(`active_executions` map and the `max_concurrent_executions` ceiling). -/
structure ExecutorState where
  max_concurrent_executions : Nat
  active_executions : List (String × ArbitrageExecution)
deriving DecidableEq, Repr

/-- executor.rs lines 36-42: a freshly constructed executor has an empty
active map. -/
def ExecutorState.init (max_concurrent_executions : Nat) : ExecutorState :=
  { max_concurrent_executions := max_concurrent_executions
    active_executions := [] }

/-- executor.rs lines 76-93: the execution record built by
`execute_opportunity` (status `Executing`, empty single-hop placeholder
route, no signature/cost/profit yet). -/
def ArbitrageExecutor.mkExecution (now : Int) (exec_id route_id : String)
    (o : ArbitrageOpportunity) : ArbitrageExecution :=
  { id := exec_id
    opportunity := o
    route := ArbitrageRoute.new route_id [] o.base_token o.quote_token 0
    transaction_signature := none
    execution_status := .Executing
    gas_used := none
    gas_price := none
    total_cost := none
    actual_profit := none
    execution_time := now
    error_message := none }

/-- executor.rs lines 67-104: `ArbitrageExecutor::execute_opportunity`.
At or over the ceiling the opportunity is dropped (state unchanged,
nothing sent); otherwise the new record is inserted into the active map
and sent on the execution channel (returned as `some`). -/
def ArbitrageExecutor.execute_opportunity (now : Int) (exec_id route_id : String)
    (st : ExecutorState) (o : ArbitrageOpportunity) :
    ExecutorState × Option ArbitrageExecution :=
  if st.active_executions.length ≥ st.max_concurrent_executions then
    (st, none)
  else
    let execution := ArbitrageExecutor.mkExecution now exec_id route_id o
    ({ st with
        active_executions := insertAssoc st.active_executions execution.id execution },
     some execution)

/-- executor.rs lines 107-134: `monitor_active_executions`: non-terminal
entries are left untouched (the status check is the inert stub), terminal
entries are collected and removed. -/
def ArbitrageExecutor.monitor_active_executions (st : ExecutorState) : ExecutorState :=
  { st with
      active_executions :=
        st.active_executions.filter fun p => ¬ p.2.execution_status.isTerminal }

/-- executor.rs lines 159-174: `cleanup_completed_executions`: removes the
entries whose status matches `Confirmed | Failed | Cancelled`. -/
def ArbitrageExecutor.cleanup_completed_executions (st : ExecutorState) : ExecutorState :=
  { st with
      active_executions :=
        st.active_executions.filter fun p => ¬ p.2.execution_status.isTerminal }

/-- executor.rs lines 195-202: `cancel_execution`: forces `Cancelled` on the
matching entry, if present. -/
def ArbitrageExecutor.cancel_execution (st : ExecutorState) (execution_id : String) :
    ExecutorState :=
  { st with
      active_executions := st.active_executions.map fun p =>
        if p.1 = execution_id then
          (p.1, { p.2 with execution_status := .Cancelled })
        else p }

/-- executor.rs lines 205-215: `retry_execution`: a `Failed` entry goes back
to `Pending` with its error cleared; anything else is untouched. -/
def ArbitrageExecutor.retry_execution (st : ExecutorState) (execution_id : String) :
    ExecutorState :=
  { st with
      active_executions := st.active_executions.map fun p =>
        if p.1 = execution_id ∧ p.2.execution_status = ExecutionStatus.Failed then
          (p.1, { p.2 with execution_status := .Pending, error_message := none })
        else p }

/-- One externally triggered executor operation (the clock reading and the
generated UUIDs of `execute_opportunity` travel with the event). -/
inductive ExecutorOp where
  | exec (now : Int) (exec_id route_id : String) (o : ArbitrageOpportunity)
  | monitor
  | cleanup
  | cancel (execution_id : String)
  | retry (execution_id : String)

/-- Apply one executor operation to the executor state. -/
def ExecutorState.step (st : ExecutorState) : ExecutorOp → ExecutorState
  | .exec now exec_id route_id o =>
    (ArbitrageExecutor.execute_opportunity now exec_id route_id st o).1
  | .monitor => ArbitrageExecutor.monitor_active_executions st
  | .cleanup => ArbitrageExecutor.cleanup_completed_executions st
  | .cancel execution_id => ArbitrageExecutor.cancel_execution st execution_id
  | .retry execution_id => ArbitrageExecutor.retry_execution st execution_id

/-- engine.rs: the engine state touched by `process_opportunity`: the
strategy map (values only), the `active_opportunities` map, the memory
store, and the executions sent on the execution channel.  Each forwarded
element stands for the `ArbitrageExecution::new(opportunity)` built at
engine.rs lines 448-469 and sent at line 227; its payload is the
opportunity recorded here. -/
structure EngineState where
  strategies : List ArbitrageStrategy
  active_opportunities : List (String × ArbitrageOpportunity)
  store : MemoryStoreState
  forwarded : List ArbitrageOpportunity
deriving Repr

/-- engine.rs lines 184-232: `ArbitrageEngine::process_opportunity`.
In order: discard when expired; discard when no loaded strategy finds the
opportunity suitable; discard when the id is already active (dedup);
discard when not profitable against the configured threshold; otherwise
insert into the active map, save to the memory store, and forward an
execution on the execution channel.  The optional database mirror is
best-effort and carries no state of its own here. -/
def ArbitrageEngine.process_opportunity (now : Int) (min_profit_threshold : Rat)
    (st : EngineState) (o : ArbitrageOpportunity) : EngineState :=
  if o.is_expired now then st
  else if ¬ st.strategies.any (fun s => s.is_opportunity_suitable o) then st
  else if (List.lookup o.id st.active_opportunities).isSome then st
  else if ¬ o.is_profitable min_profit_threshold then st
  else
    { st with
        active_opportunities := insertAssoc st.active_opportunities o.id o
        store := (MemoryStore.save_opportunity st.store o).1
        forwarded := st.forwarded ++ [o] }

/-- One element of the `Vec<(Pool, Pool, Decimal, Decimal)>` built by
scanner.rs `calculate_price_differences`. -/
structure PriceDiff where
  buy_pool : Pool
  sell_pool : Pool
  price_diff : Rat
  profit_percentage : Rat
deriving DecidableEq, Repr

/-- The index pairs `i < j` of scanner.rs lines 167-168, as the ordered
pair combinations of a list. -/
def pairCombos {α : Type} : List α → List (α × α)
  | [] => []
  | x :: xs => (xs.map fun y => (x, y)) ++ pairCombos xs

/-- Descending insertion by `profit_percentage`, the order produced by the
`sort_by(partial_cmp.reverse)` at scanner.rs line 200. -/
def insertByProfitDesc (x : PriceDiff) : List PriceDiff → List PriceDiff
  | [] => [x]
  | y :: ys =>
    if x.profit_percentage ≥ y.profit_percentage then x :: y :: ys
    else y :: insertByProfitDesc x ys

/-- Sort a difference list descending by `profit_percentage`
(scanner.rs line 200). -/
def sortByProfitDesc : List PriceDiff → List PriceDiff
  | [] => []
  | x :: xs => insertByProfitDesc x (sortByProfitDesc xs)

/-- scanner.rs lines 159-203: `OpportunityScanner::calculate_price_differences`.
For every pool pair `i < j` whose prices of the pair's first token both
exist: `price_diff = |price_i − price_j|`, `profit_percentage = price_diff`
divided by the SMALLER of the two prices, buy pool = the lower-priced pool;
the result is sorted descending by profit percentage.  (`token_b` is a
parameter of the Rust function but is unused in its body.) -/
def OpportunityScanner.calculate_price_differences
    (pools : List Pool) (token_a _token_b : Token) : List PriceDiff :=
  let raw := (pairCombos pools).filterMap fun pq =>
    let pool_a := pq.1
    let pool_b := pq.2
    match pool_a.get_price token_a, pool_b.get_price token_a with
    | some price_a, some price_b =>
      let price_diff := if price_a > price_b then price_a - price_b else price_b - price_a
      let profit_percentage :=
        if price_a > price_b then price_diff / price_b else price_diff / price_a
      let buy_sell := if price_a < price_b then (pool_a, pool_b) else (pool_b, pool_a)
      some { buy_pool := buy_sell.1
             sell_pool := buy_sell.2
             price_diff := price_diff
             profit_percentage := profit_percentage }
    | _, _ => none
  sortByProfitDesc raw

/-- scanner.rs lines 100-101: the retention filter of
`find_arbitrage_opportunities`: a combination survives when its profit
percentage meets the configured minimum threshold. -/
def OpportunityScanner.profitable_price_differences
    (min_profit_threshold : Rat) (pools : List Pool) (token_a token_b : Token) :
    List PriceDiff :=
  (OpportunityScanner.calculate_price_differences pools token_a token_b).filter
    fun d => decide (d.profit_percentage ≥ min_profit_threshold)

/-! Concrete fixtures used by counterexamples, scenario checks and
witnesses. Numeric fields are chosen integer-valued wherever the claim
does not force a fraction, so that kernel evaluation stays cheap. -/

/-- A concrete token (mint 1). -/
def tokA : Token :=
  { mint := 1, symbol := "SOL", name := "Solana", decimals := 9
    logo_uri := none, coingecko_id := none }

/-- A concrete token (mint 2). -/
def tokB : Token :=
  { mint := 2, symbol := "USDC", name := "USD Coin", decimals := 6
    logo_uri := none, coingecko_id := none }

/-- A concrete healthy Raydium pool for the pair (tokA, tokB). -/
def basePool : Pool :=
  { id := "pool1", dex_type := .Raydium, token_a := tokA, token_b := tokB
    reserve_a := 1000000, reserve_b := 1000000, fee_rate := 0
    pool_address := 3, authority := 4, program_id := 5, version := "1.0"
    is_active := true, last_updated := 0 }

/-- A concrete pending opportunity between two Raydium pools
(all derived numeric fields integer-valued, expiry 100). -/
def baseOpp : ArbitrageOpportunity :=
  { id := "opp", base_token := tokA, quote_token := tokB
    buy_pool := basePool
    sell_pool := { basePool with id := "pool2" }
    buy_price := 1, sell_price := 2, price_difference := 1
    profit_percentage := 1, estimated_profit := 0, estimated_fees := 0
    net_profit := 0, risk_score := .Low, timestamp := 0, expiry := 100
    status := .Pending }

/-- An empty memory store with the given capacities. -/
def emptyStore (max_opportunities max_executions : Nat) : MemoryStoreState :=
  { opportunities := [], strategies := [], executions := []
    metrics := { total_opportunities := 0, total_executions := 0
                 successful_executions := 0, total_profit := 0, total_fees := 0 }
    max_opportunities := max_opportunities, max_executions := max_executions }

/-- C1 fixture: a strategy demanding `min_liquidity = 1000`. -/
def C1strat : ArbitrageStrategy :=
  { id := "s1", name := "default", description := "d"
    min_profit_threshold := 1, max_slippage := 1, max_price_impact := 1
    min_liquidity := 1000, supported_dexes := [.Raydium]
    risk_tolerance := .Medium, is_active := true, created_at := 0, updated_at := 0 }

/-- C1 fixture: a suitable-looking opportunity whose pools hold only 5
units of each reserve — far below `C1strat.min_liquidity`. -/
def C1opp : ArbitrageOpportunity :=
  { baseOpp with
      profit_percentage := 2
      buy_pool := { basePool with reserve_a := 5, reserve_b := 5 }
      sell_pool := { basePool with id := "pool2", reserve_a := 5, reserve_b := 5 } }

/-- C3 fixtures: three opportunities with distinct ids and increasing
creation timestamps. -/
def C3opp1 : ArbitrageOpportunity := { baseOpp with id := "a", timestamp := 1 }

/-- C3 fixture, timestamp 2. -/
def C3opp2 : ArbitrageOpportunity := { baseOpp with id := "b", timestamp := 2 }

/-- C3 fixture, timestamp 3. -/
def C3opp3 : ArbitrageOpportunity := { baseOpp with id := "c", timestamp := 3 }

/-- C4 fixture: a concrete execution record held in the executor map. -/
def C4exec : ArbitrageExecution := ArbitrageExecutor.mkExecution 0 "e1" "r1" baseOpp

/-- C4 fixture: an executor at its ceiling (1 of max 1 slots in use). -/
def C4full : ExecutorState :=
  { max_concurrent_executions := 1, active_executions := [("e1", C4exec)] }

/-- C5 fixture: a strategy that accepts `C5opp`. -/
def C5strat : ArbitrageStrategy :=
  { C1strat with id := "s5", supported_dexes := [.Raydium, .Meteora] }

/-- C5 fixture: a non-expired, suitable, profitable opportunity. -/
def C5opp : ArbitrageOpportunity := { baseOpp with net_profit := 5 }

/-- C5 fixture: an engine state with one loaded strategy and nothing
active yet. -/
def C5state : EngineState :=
  { strategies := [C5strat], active_opportunities := []
    store := emptyStore 10 10, forwarded := [] }

/-- C6 fixture (Scenario A): pool1, reserves 1,000,000 / 1,000,000, fee 0. -/
def scanPool1 : Pool := basePool

/-- C6 fixture (Scenario A): pool2, reserves 1,010,000 / 1,000,000, fee 0,
on a second DEX. -/
def scanPool2 : Pool :=
  { basePool with id := "pool2", dex_type := .Meteora, reserve_a := 1010000 }

/-- C8 fixture: a pool with both reserves zero. -/
def C8pool : Pool := { basePool with reserve_a := 0, reserve_b := 0 }

/-- C9 fixture: a pool with both reserves exactly 1000 (no liquidity
penalty). -/
def C9pool : Pool := { basePool with reserve_a := 1000, reserve_b := 1000 }

/-- C2 fixture: an engine state with no loaded strategies. -/
def C2state : EngineState :=
  { strategies := [], active_opportunities := []
    store := emptyStore 5 5, forwarded := [] }

/-- C3 witness fixture: a store at capacity (2 of 2 slots in use). -/
def C3fullStore : MemoryStoreState :=
  { emptyStore 2 10 with opportunities := [("a", C3opp1), ("b", C3opp2)] }

/-- C3 scenario: the store after saving `C3opp1`, `C3opp2`, `C3opp3` in
order into an empty store with `max_opportunities = 2`. -/
def C3store3 : MemoryStoreState :=
  (MemoryStore.save_opportunity
    ((MemoryStore.save_opportunity
      ((MemoryStore.save_opportunity (emptyStore 2 10) C3opp1).1) C3opp2).1) C3opp3).1

/-! ## Theorems -/

/-- The final bucket map of `calculate_risk_score` is monotone in the
point total. -/
theorem toRiskScore_mono {s t : Nat} (h : s ≤ t) :
    (toRiskScore s).toNat ≤ (toRiskScore t).toNat := by
  unfold toRiskScore
  split_ifs <;> simp [RiskScore.toNat] <;> omega

/-- The per-pool liquidity term contributes at most 2 points. -/
theorem liquidityPoints_le (p : Pool) : liquidityPoints p ≤ 2 := by
  unfold liquidityPoints
  split_ifs <;> omega

/-- A pool with a reserve below 1000 gets the full liquidity penalty. -/
theorem liquidityPoints_low_a (p : Pool) (h : p.reserve_a < 1000) :
    liquidityPoints p = 2 := by
  unfold liquidityPoints
  rw [if_pos (Or.inl h)]

/-- A pool whose second reserve is below 1000 gets the full liquidity
penalty. -/
theorem liquidityPoints_low_b (p : Pool) (h : p.reserve_b < 1000) :
    liquidityPoints p = 2 := by
  unfold liquidityPoints
  rw [if_pos (Or.inr h)]

/-- C7: every opportunity built by `ArbitrageOpportunity::new` has
`expiry = timestamp + 30` seconds, and `is_expired` is true exactly when
the current time is strictly later than the expiry. -/
theorem opportunity_expiry_thirty_seconds
    (now : Int) (id : String) (base quote : Token) (bp sp : Pool) :
    ((ArbitrageOpportunity.new now id base quote bp sp).expiry
      = (ArbitrageOpportunity.new now id base quote bp sp).timestamp + 30)
    ∧ ∀ t : Int,
        ((ArbitrageOpportunity.new now id base quote bp sp).is_expired t = true
          ↔ t > (ArbitrageOpportunity.new now id base quote bp sp).expiry) := by
  refine ⟨rfl, fun t => ?_⟩
  simp [ArbitrageOpportunity.is_expired]

/-- C8: for a pool with non-negative reserves, `get_price` returns `none`
whenever the denominator-side reserve is zero (`reserve_b` when pricing
`token_a`, `reserve_a` when pricing `token_b`), returns `none` when the
token matches neither pool token, and never returns a negative price.
The embedded function is total, matching the panic-free Rust source. -/
theorem get_price_safe (p : Pool) (base : Token)
    (ha : 0 ≤ p.reserve_a) (hb : 0 ≤ p.reserve_b) :
    (base.mint = p.token_a.mint → p.reserve_b = 0 → p.get_price base = none)
    ∧ (base.mint ≠ p.token_a.mint → base.mint = p.token_b.mint →
        p.reserve_a = 0 → p.get_price base = none)
    ∧ (base.mint ≠ p.token_a.mint → base.mint ≠ p.token_b.mint →
        p.get_price base = none)
    ∧ (∀ q : Rat, p.get_price base = some q → 0 ≤ q) := by
  refine ⟨?_, ?_, ?_, ?_⟩
  · intro h1 h2
    simp [Pool.get_price, h1, h2]
  · intro h1 h2 h3
    unfold Pool.get_price
    rw [if_neg h1, if_pos h2, if_neg (by simp [h3])]
  · intro h1 h2
    simp [Pool.get_price, h1, h2]
  · intro q hq
    unfold Pool.get_price at hq
    by_cases h1 : base.mint = p.token_a.mint
    · simp only [h1, if_true] at hq
      by_cases h2 : p.reserve_b > 0
      · simp only [h2, if_true, Option.some.injEq] at hq
        exact hq ▸ div_nonneg ha (le_of_lt h2)
      · simp [h2] at hq
    · simp only [h1, if_false] at hq
      by_cases h2 : base.mint = p.token_b.mint
      · simp only [h2, if_true] at hq
        by_cases h3 : p.reserve_a > 0
        · simp only [h3, if_true, Option.some.injEq] at hq
          exact hq ▸ div_nonneg hb (le_of_lt h3)
        · simp [h3] at hq
      · simp [h2] at hq

/-- C8 witness: the theorem applied to the concrete zero-reserve pool. -/
theorem get_price_safe_witness :
    (0 : Rat) ≤ C8pool.reserve_a ∧ (0 : Rat) ≤ C8pool.reserve_b
    ∧ (tokA.mint = C8pool.token_a.mint → C8pool.reserve_b = 0 →
        C8pool.get_price tokA = none) :=
  ⟨by decide, by decide,
    (get_price_safe C8pool tokA (by decide) (by decide)).1⟩

/-- C1 counterexample: a strategy demanding `min_liquidity = 1000` still
reports an opportunity with 5-unit reserves as suitable —
`is_opportunity_suitable` performs no reserve check, so the claimed
"all four pool reserves ≥ min_liquidity" conjunct of the iff fails. -/
theorem suitability_ignores_min_liquidity :
    C1strat.is_opportunity_suitable C1opp = true
    ∧ C1opp.buy_pool.reserve_a < C1strat.min_liquidity
    ∧ C1opp.buy_pool.reserve_b < C1strat.min_liquidity
    ∧ C1opp.sell_pool.reserve_a < C1strat.min_liquidity
    ∧ C1opp.sell_pool.reserve_b < C1strat.min_liquidity := by
  decide

/-- C1 (amended): `is_opportunity_suitable` is true iff the profit
percentage meets the strategy threshold, the risk score is within the
tolerated maximum (derived order Low < Medium < High < Critical), and both
pools' DEX types are supported — with no liquidity condition. -/
theorem is_opportunity_suitable_iff (s : ArbitrageStrategy) (o : ArbitrageOpportunity) :
    s.is_opportunity_suitable o = true ↔
      (s.min_profit_threshold ≤ o.profit_percentage
       ∧ o.risk_score.toNat ≤ s.risk_tolerance.toNat
       ∧ o.buy_pool.dex_type ∈ s.supported_dexes
       ∧ o.sell_pool.dex_type ∈ s.supported_dexes) := by
  simp [ArbitrageStrategy.is_opportunity_suitable, Bool.and_eq_true,
    decide_eq_true_iff, List.elem_iff, ge_iff_le, and_assoc]

/-- C10: `save_opportunity` and `save_execution` return `Ok` on every
input and every store state; the write always lands — the opportunity is
found under its id afterwards, and the execution is the new back of the
deque. -/
theorem store_saves_always_ok (st : MemoryStoreState)
    (o : ArbitrageOpportunity) (e : ArbitrageExecution) :
    (MemoryStore.save_opportunity st o).2 = Except.ok ()
    ∧ (MemoryStore.save_execution st e).2 = Except.ok ()
    ∧ List.lookup o.id (MemoryStore.save_opportunity st o).1.opportunities = some o
    ∧ (MemoryStore.save_execution st e).1.executions.getLast? = some e := by
  refine ⟨rfl, rfl, ?_, ?_⟩
  · simp [MemoryStore.save_opportunity, insertAssoc, List.lookup]
  · simp [MemoryStore.save_execution, List.getLast?_concat]

/-- C9: holding everything else fixed, decreasing any one of the four pool
reserves from a value ≥ 1000 to a value < 1000 never decreases the
computed `RiskScore` (compared through its rank `Low < Medium < High <
Critical`). -/
theorem risk_score_monotone_in_reserves
    (now : Int) (bp sp : Pool) (pp r' : Rat) (hr' : r' < 1000) :
    (1000 ≤ bp.reserve_a →
      (ArbitrageOpportunity.calculate_risk_score now bp sp pp).toNat
        ≤ (ArbitrageOpportunity.calculate_risk_score now
            { bp with reserve_a := r' } sp pp).toNat)
    ∧ (1000 ≤ bp.reserve_b →
      (ArbitrageOpportunity.calculate_risk_score now bp sp pp).toNat
        ≤ (ArbitrageOpportunity.calculate_risk_score now
            { bp with reserve_b := r' } sp pp).toNat)
    ∧ (1000 ≤ sp.reserve_a →
      (ArbitrageOpportunity.calculate_risk_score now bp sp pp).toNat
        ≤ (ArbitrageOpportunity.calculate_risk_score now bp
            { sp with reserve_a := r' } pp).toNat)
    ∧ (1000 ≤ sp.reserve_b →
      (ArbitrageOpportunity.calculate_risk_score now bp sp pp).toNat
        ≤ (ArbitrageOpportunity.calculate_risk_score now bp
            { sp with reserve_b := r' } pp).toNat) := by
  refine ⟨fun _h => ?_, fun _h => ?_, fun _h => ?_, fun _h => ?_⟩ <;>
    apply toRiskScore_mono <;> unfold riskPoints
  · rw [liquidityPoints_low_a _ (show ({ bp with reserve_a := r' } : Pool).reserve_a < 1000 from hr'),
      show stalenessPoints now { bp with reserve_a := r' } = stalenessPoints now bp from rfl]
    have := liquidityPoints_le bp
    omega
  · rw [liquidityPoints_low_b _ (show ({ bp with reserve_b := r' } : Pool).reserve_b < 1000 from hr'),
      show stalenessPoints now { bp with reserve_b := r' } = stalenessPoints now bp from rfl]
    have := liquidityPoints_le bp
    omega
  · rw [liquidityPoints_low_a _ (show ({ sp with reserve_a := r' } : Pool).reserve_a < 1000 from hr')]
    have := liquidityPoints_le sp
    omega
  · rw [liquidityPoints_low_b _ (show ({ sp with reserve_b := r' } : Pool).reserve_b < 1000 from hr')]
    have := liquidityPoints_le sp
    omega

/-- C9 witness: the theorem applied to the concrete 1000/1000 pools, with
the buy pool's first reserve dropped to 5. -/
theorem risk_score_monotone_in_reserves_witness :
    ((5 : Rat) < 1000) ∧ ((1000 : Rat) ≤ C9pool.reserve_a)
    ∧ (ArbitrageOpportunity.calculate_risk_score 0 C9pool C9pool 1).toNat
        ≤ (ArbitrageOpportunity.calculate_risk_score 0
            { C9pool with reserve_a := 5 } C9pool 1).toNat :=
  ⟨by decide, by decide,
    (risk_score_monotone_in_reserves 0 C9pool C9pool 1 5 (by decide)).1 (by decide)⟩

/-- C2: every opportunity built by `ArbitrageOpportunity::new` has zero
estimated profit, zero estimated fees and zero net profit; `is_profitable`
is false for it at every threshold ≥ 0; and for every configured minimum
profit threshold ≥ 0 the engine's `process_opportunity` leaves the state
unchanged on such an opportunity — in particular it never forwards an
execution for it. -/
theorem new_opportunity_never_forwarded
    (now : Int) (id : String) (base quote : Token) (bp sp : Pool) :
    (ArbitrageOpportunity.new now id base quote bp sp).estimated_profit = 0
    ∧ (ArbitrageOpportunity.new now id base quote bp sp).estimated_fees = 0
    ∧ (ArbitrageOpportunity.new now id base quote bp sp).net_profit = 0
    ∧ (∀ t : Rat, 0 ≤ t →
        (ArbitrageOpportunity.new now id base quote bp sp).is_profitable t = false)
    ∧ (∀ (now' : Int) (thr : Rat) (st : EngineState), 0 ≤ thr →
        ArbitrageEngine.process_opportunity now' thr st
          (ArbitrageOpportunity.new now id base quote bp sp) = st) := by
  have hnet : (ArbitrageOpportunity.new now id base quote bp sp).net_profit = 0 := by
    simp [ArbitrageOpportunity.new]
  have hprof : ∀ t : Rat, 0 ≤ t →
      (ArbitrageOpportunity.new now id base quote bp sp).is_profitable t = false := by
    intro t ht
    simp [ArbitrageOpportunity.is_profitable, hnet, not_lt, ht]
  refine ⟨rfl, rfl, hnet, hprof, ?_⟩
  intro now' thr st hthr
  have hpf := hprof thr hthr
  unfold ArbitrageEngine.process_opportunity
  simp [hpf]

/-- C2 witness: the theorem applied to a concrete freshly constructed
opportunity, a zero threshold, and a concrete engine state. -/
theorem new_opportunity_never_forwarded_witness :
    ((0 : Rat) ≤ 0)
    ∧ (ArbitrageOpportunity.new 0 "w" tokA tokB basePool basePool).is_profitable 0 = false
    ∧ ArbitrageEngine.process_opportunity 0 0 C2state
        (ArbitrageOpportunity.new 0 "w" tokA tokB basePool basePool) = C2state :=
  ⟨le_refl 0,
    (new_opportunity_never_forwarded 0 "w" tokA tokB basePool basePool).2.2.2.1 0 (le_refl 0),
    (new_opportunity_never_forwarded 0 "w" tokA tokB basePool basePool).2.2.2.2 0 0 C2state
      (le_refl 0)⟩

/-- Inserting into an association map grows it by at most one entry. -/
theorem insertAssoc_length_le {α : Type} (l : List (String × α)) (k : String) (v : α) :
    (insertAssoc l k v).length ≤ l.length + 1 := by
  unfold insertAssoc
  simp only [List.length_cons]
  exact Nat.succ_le_succ (List.length_filter_le _ _)

/-- One executor operation keeps the active-map size within the ceiling
and never touches the ceiling itself. -/
theorem executor_step_preserves (st : ExecutorState) (op : ExecutorOp)
    (h : st.active_executions.length ≤ st.max_concurrent_executions) :
    (st.step op).active_executions.length ≤ (st.step op).max_concurrent_executions
    ∧ (st.step op).max_concurrent_executions = st.max_concurrent_executions := by
  cases op with
  | exec now exec_id route_id o =>
    unfold ExecutorState.step ArbitrageExecutor.execute_opportunity
    split_ifs with hfull
    · exact ⟨h, rfl⟩
    · push_neg at hfull
      refine ⟨?_, rfl⟩
      have := insertAssoc_length_le st.active_executions
        (ArbitrageExecutor.mkExecution now exec_id route_id o).id
        (ArbitrageExecutor.mkExecution now exec_id route_id o)
      simp only []
      omega
  | monitor =>
    exact ⟨le_trans (List.length_filter_le _ _) h, rfl⟩
  | cleanup =>
    exact ⟨le_trans (List.length_filter_le _ _) h, rfl⟩
  | cancel execution_id =>
    refine ⟨?_, rfl⟩
    unfold ExecutorState.step ArbitrageExecutor.cancel_execution
    simpa using h
  | retry execution_id =>
    refine ⟨?_, rfl⟩
    unfold ExecutorState.step ArbitrageExecutor.retry_execution
    simpa using h

/-- Running a sequence of executor operations keeps the active-map size
within the (unchanged) ceiling. -/
theorem executor_run_preserves (ops : List ExecutorOp) (st : ExecutorState)
    (h : st.active_executions.length ≤ st.max_concurrent_executions) :
    (ops.foldl ExecutorState.step st).active_executions.length
        ≤ (ops.foldl ExecutorState.step st).max_concurrent_executions
    ∧ (ops.foldl ExecutorState.step st).max_concurrent_executions
        = st.max_concurrent_executions := by
  induction ops generalizing st with
  | nil => exact ⟨h, rfl⟩
  | cons op rest ih =>
    obtain ⟨h1, h2⟩ := executor_step_preserves st op h
    obtain ⟨h3, h4⟩ := ih (st.step op) h1
    exact ⟨h3, h4.trans h2⟩

/-- C4: from an empty active set, no sequence of executor operations
(execute, monitor, cleanup, cancel, retry) ever pushes the active-map
size above `max_concurrent_executions`; and an `execute_opportunity`
call arriving with the map at the ceiling changes nothing and sends
nothing (the opportunity is dropped, not queued). -/
theorem executor_concurrency_bound :
    (∀ (max_concurrent : Nat) (ops : List ExecutorOp),
        (ops.foldl ExecutorState.step (ExecutorState.init max_concurrent)).active_executions.length
          ≤ max_concurrent)
    ∧ (∀ (st : ExecutorState) (now : Int) (exec_id route_id : String)
        (o : ArbitrageOpportunity),
        st.active_executions.length = st.max_concurrent_executions →
        ArbitrageExecutor.execute_opportunity now exec_id route_id st o = (st, none)) := by
  constructor
  · intro max_concurrent ops
    have h0 : (ExecutorState.init max_concurrent).active_executions.length
        ≤ (ExecutorState.init max_concurrent).max_concurrent_executions := by
      simp [ExecutorState.init]
    obtain ⟨h1, h2⟩ := executor_run_preserves ops (ExecutorState.init max_concurrent) h0
    rw [h2] at h1
    exact h1
  · intro st now exec_id route_id o h
    unfold ArbitrageExecutor.execute_opportunity
    rw [if_pos (ge_of_eq h)]

/-- C4 witness: the theorem applied to a one-slot executor and to the
concrete full executor `C4full`. -/
theorem executor_concurrency_bound_witness :
    (([ExecutorOp.exec 0 "e1" "r1" baseOpp, ExecutorOp.exec 1 "e2" "r2" baseOpp].foldl
        ExecutorState.step (ExecutorState.init 1)).active_executions.length ≤ 1)
    ∧ C4full.active_executions.length = C4full.max_concurrent_executions
    ∧ ArbitrageExecutor.execute_opportunity 2 "e3" "r3" C4full baseOpp = (C4full, none) :=
  ⟨executor_concurrency_bound.1 1 [ExecutorOp.exec 0 "e1" "r1" baseOpp,
      ExecutorOp.exec 1 "e2" "r2" baseOpp],
    rfl,
    executor_concurrency_bound.2 C4full 2 "e3" "r3" baseOpp rfl⟩

/-- `process_opportunity` either discards (state unchanged) or, only when
the id was absent from the active map, performs the insert-save-forward
step. -/
theorem process_opportunity_cases (now : Int) (thr : Rat) (st : EngineState)
    (o : ArbitrageOpportunity) :
    ArbitrageEngine.process_opportunity now thr st o = st
    ∨ (List.lookup o.id st.active_opportunities = none
       ∧ ArbitrageEngine.process_opportunity now thr st o
          = { st with
                active_opportunities := insertAssoc st.active_opportunities o.id o
                store := (MemoryStore.save_opportunity st.store o).1
                forwarded := st.forwarded ++ [o] }) := by
  unfold ArbitrageEngine.process_opportunity
  split_ifs with h1 h2 h3 h4
  · exact Or.inl rfl
  · exact Or.inl rfl
  · exact Or.inr ⟨Option.not_isSome_iff_eq_none.mp h3, rfl⟩
  · exact Or.inl rfl
  · exact Or.inl rfl

/-- An opportunity whose id is already in the active map is discarded —
the dedup check fires before any state change. -/
theorem process_opportunity_dedup (now : Int) (thr : Rat) (st : EngineState)
    (o : ArbitrageOpportunity)
    (h : (List.lookup o.id st.active_opportunities).isSome = true) :
    ArbitrageEngine.process_opportunity now thr st o = st := by
  unfold ArbitrageEngine.process_opportunity
  split_ifs with h1 h2 <;> rfl

/-- C5: submitting a second opportunity with the same id before the id
leaves the active map yields exactly one forwarded execution: the first
submission (which entered the active map) forwarded it, and the second
submission is a no-op discarded at the dedup check. -/
theorem engine_dedup_single_forward
    (now now' : Int) (thr : Rat) (st : EngineState) (o1 o2 : ArbitrageOpportunity)
    (hid : o2.id = o1.id)
    (h0 : List.lookup o1.id st.active_opportunities = none)
    (h1 : (List.lookup o1.id
        (ArbitrageEngine.process_opportunity now thr st o1).active_opportunities).isSome
          = true) :
    (ArbitrageEngine.process_opportunity now thr st o1).forwarded = st.forwarded ++ [o1]
    ∧ ArbitrageEngine.process_opportunity now' thr
        (ArbitrageEngine.process_opportunity now thr st o1) o2
      = ArbitrageEngine.process_opportunity now thr st o1 := by
  rcases process_opportunity_cases now thr st o1 with heq | ⟨-, heq⟩
  · rw [heq, h0] at h1
    simp at h1
  · constructor
    · rw [heq]
    · apply process_opportunity_dedup
      rw [hid, heq]
      simp [insertAssoc, List.lookup]

/-- C5 witness: the theorem applied to a concrete engine state with one
accepting strategy and a concrete profitable opportunity submitted twice. -/
theorem engine_dedup_single_forward_witness :
    C5opp.id = C5opp.id
    ∧ List.lookup C5opp.id C5state.active_opportunities = none
    ∧ (List.lookup C5opp.id
        (ArbitrageEngine.process_opportunity 0 0 C5state C5opp).active_opportunities).isSome
          = true
    ∧ (ArbitrageEngine.process_opportunity 0 0 C5state C5opp).forwarded
        = C5state.forwarded ++ [C5opp]
    ∧ ArbitrageEngine.process_opportunity 1 0
        (ArbitrageEngine.process_opportunity 0 0 C5state C5opp) C5opp
      = ArbitrageEngine.process_opportunity 0 0 C5state C5opp :=
  ⟨rfl, rfl, by decide,
    (engine_dedup_single_forward 0 1 0 C5state C5opp C5opp rfl rfl (by decide)).1,
    (engine_dedup_single_forward 0 1 0 C5state C5opp C5opp rfl rfl (by decide)).2⟩

/-- `minByTimestamp` of a non-empty map finds an entry. -/
theorem minByTimestamp_isSome {l : List (String × ArbitrageOpportunity)}
    (h : l ≠ []) : (minByTimestamp l).isSome = true := by
  cases l with
  | nil => exact absurd rfl h
  | cons a rest =>
    unfold minByTimestamp
    split
    · rfl
    · split_ifs <;> rfl

/-- The entry found by `minByTimestamp` is in the map. -/
theorem minByTimestamp_mem {l : List (String × ArbitrageOpportunity)}
    {p : String × ArbitrageOpportunity} (h : minByTimestamp l = some p) : p ∈ l := by
  induction l with
  | nil => simp [minByTimestamp] at h
  | cons a rest ih =>
    unfold minByTimestamp at h
    split at h
    · simp only [Option.some.injEq] at h
      exact h ▸ List.mem_cons_self a rest
    · next m hm =>
        split_ifs at h with hlt <;> simp only [Option.some.injEq] at h <;> subst h
        · exact List.mem_cons_of_mem a (ih hm)
        · exact List.mem_cons_self a rest

/-- The entry found by `minByTimestamp` has the smallest creation
timestamp in the map. -/
theorem minByTimestamp_min {l : List (String × ArbitrageOpportunity)} :
    ∀ {p : String × ArbitrageOpportunity}, minByTimestamp l = some p →
    ∀ q ∈ l, p.2.timestamp ≤ q.2.timestamp := by
  induction l with
  | nil => intro p h; simp [minByTimestamp] at h
  | cons a rest ih =>
    intro p h q hq
    unfold minByTimestamp at h
    split at h
    · next hm =>
        simp only [Option.some.injEq] at h
        subst h
        rcases List.mem_cons.mp hq with rfl | hmem
        · exact le_refl _
        · have hne : rest ≠ [] := by
            intro hn
            rw [hn] at hmem
            simp at hmem
          have hs := minByTimestamp_isSome hne
          rw [hm] at hs
          simp at hs
    · next m hm =>
        rcases List.mem_cons.mp hq with rfl | hmem
        · split_ifs at h with hlt <;> simp only [Option.some.injEq] at h <;> subst h
          · exact le_of_lt hlt
          · exact le_refl _
        · split_ifs at h with hlt <;> simp only [Option.some.injEq] at h <;> subst h
          · exact ih hm q hmem
          · push_neg at hlt
            exact le_trans hlt (ih hm q hmem)

/-- Removing a key that is present strictly shrinks an association map. -/
theorem removeKey_length_lt {α : Type} {l : List (String × α)}
    {k : String} {v : α} (h : (k, v) ∈ l) :
    (removeKey l k).length < l.length := by
  unfold removeKey
  induction l with
  | nil => simp at h
  | cons a rest ih =>
    rcases List.mem_cons.mp h with heq | hmem
    · have ha : ¬ (a.1 ≠ k) := by rw [← heq]; simp
      simp only [List.filter_cons, decide_eq_true_eq]
      rw [if_neg (by simpa using ha)]
      exact Nat.lt_succ_of_le (List.length_filter_le _ _)
    · simp only [List.filter_cons]
      split_ifs
      · simpa using Nat.succ_lt_succ (ih hmem)
      · exact Nat.lt_succ_of_lt (ih hmem)

/-- `save_opportunity` never lifts the opportunity count above a positive
capacity it already satisfied. -/
theorem save_opportunity_length (st : MemoryStoreState) (o : ArbitrageOpportunity)
    (hmax : 1 ≤ st.max_opportunities)
    (h : st.opportunities.length ≤ st.max_opportunities) :
    (MemoryStore.save_opportunity st o).1.opportunities.length
      ≤ st.max_opportunities := by
  unfold MemoryStore.save_opportunity
  by_cases hcap : st.opportunities.length ≥ st.max_opportunities
  · have hlen : st.opportunities.length = st.max_opportunities := le_antisymm h hcap
    have hne : st.opportunities ≠ [] := by
      intro hnil
      rw [hnil] at hlen
      simp at hlen
      omega
    obtain ⟨p, hp⟩ := Option.isSome_iff_exists.mp (minByTimestamp_isSome hne)
    simp only [hcap, if_true, hp]
    have h1 : (removeKey st.opportunities p.1).length < st.opportunities.length :=
      removeKey_length_lt (minByTimestamp_mem hp)
    have h2 := insertAssoc_length_le (removeKey st.opportunities p.1) o.id o
    show (insertAssoc (removeKey st.opportunities p.1) o.id o).length
      ≤ st.max_opportunities
    omega
  · rw [if_neg hcap]
    push_neg at hcap
    have h2 := insertAssoc_length_le st.opportunities o.id o
    show (insertAssoc st.opportunities o.id o).length ≤ st.max_opportunities
    omega

/-- `save_opportunity` never changes the configured capacity. -/
theorem save_opportunity_max (st : MemoryStoreState) (o : ArbitrageOpportunity) :
    (MemoryStore.save_opportunity st o).1.max_opportunities = st.max_opportunities := rfl

/-- C3 counterexample: with `max_opportunities = 0` a save still inserts
(the eviction scan of an empty map removes nothing), so one save lifts the
count to 1 — above the configured ceiling of 0. -/
theorem store_capacity_zero_violated :
    (emptyStore 0 10).max_opportunities = 0
    ∧ (MemoryStore.save_opportunity (emptyStore 0 10) C3opp1).1.opportunities.length = 1 :=
  ⟨rfl, rfl⟩

/-- C3 (amended, for positive capacity): from any store within a capacity
`max_opportunities ≥ 1`, every sequence of `save_opportunity` calls keeps
the opportunity count ≤ that capacity; a save at capacity removes exactly
an entry whose creation timestamp is minimal among those present; and in
Scenario C (capacity 2, saves with timestamps 1 < 2 < 3) the oldest entry
is gone and the two newer ones are present. -/
theorem save_opportunity_capacity_and_eviction :
    (∀ (saves : List ArbitrageOpportunity) (st : MemoryStoreState),
        1 ≤ st.max_opportunities →
        st.opportunities.length ≤ st.max_opportunities →
        (saves.foldl (fun s o => (MemoryStore.save_opportunity s o).1) st).opportunities.length
          ≤ st.max_opportunities)
    ∧ (∀ (st : MemoryStoreState) (o : ArbitrageOpportunity),
        st.opportunities.length ≥ st.max_opportunities →
        st.opportunities ≠ [] →
        ∃ p : String × ArbitrageOpportunity,
          minByTimestamp st.opportunities = some p
          ∧ p ∈ st.opportunities
          ∧ (∀ q ∈ st.opportunities, p.2.timestamp ≤ q.2.timestamp)
          ∧ (MemoryStore.save_opportunity st o).1.opportunities
              = insertAssoc (removeKey st.opportunities p.1) o.id o)
    ∧ (List.lookup "a" C3store3.opportunities = none
       ∧ List.lookup "b" C3store3.opportunities = some C3opp2
       ∧ List.lookup "c" C3store3.opportunities = some C3opp3) := by
  refine ⟨?_, ?_, by decide, by decide, by decide⟩
  · intro saves
    induction saves with
    | nil => intro st _h1 h2; exact h2
    | cons o rest ih =>
      intro st h1 h2
      simp only [List.foldl_cons]
      have h3 := save_opportunity_length st o h1 h2
      have h4 := ih (MemoryStore.save_opportunity st o).1
        (by rw [save_opportunity_max]; exact h1)
        (by rw [save_opportunity_max]; exact h3)
      rwa [save_opportunity_max] at h4
  · intro st o hcap hne
    obtain ⟨p, hp⟩ := Option.isSome_iff_exists.mp (minByTimestamp_isSome hne)
    refine ⟨p, hp, minByTimestamp_mem hp, minByTimestamp_min hp, ?_⟩
    unfold MemoryStore.save_opportunity
    simp only [hcap, if_true, hp]

/-- C3 witness: the amended theorem applied to Scenario C's store and to
the concrete at-capacity store `C3fullStore`. -/
theorem save_opportunity_capacity_and_eviction_witness :
    (1 ≤ (emptyStore 2 10).max_opportunities)
    ∧ ((emptyStore 2 10).opportunities.length ≤ (emptyStore 2 10).max_opportunities)
    ∧ ([C3opp1, C3opp2, C3opp3].foldl (fun s o => (MemoryStore.save_opportunity s o).1)
        (emptyStore 2 10)).opportunities.length ≤ (emptyStore 2 10).max_opportunities
    ∧ (C3fullStore.opportunities.length ≥ C3fullStore.max_opportunities)
    ∧ (C3fullStore.opportunities ≠ [])
    ∧ (∃ p : String × ArbitrageOpportunity,
        minByTimestamp C3fullStore.opportunities = some p
        ∧ p ∈ C3fullStore.opportunities
        ∧ (∀ q ∈ C3fullStore.opportunities, p.2.timestamp ≤ q.2.timestamp)
        ∧ (MemoryStore.save_opportunity C3fullStore C3opp3).1.opportunities
            = insertAssoc (removeKey C3fullStore.opportunities p.1) C3opp3.id C3opp3) :=
  ⟨by decide, by decide,
    save_opportunity_capacity_and_eviction.1 [C3opp1, C3opp2, C3opp3] (emptyStore 2 10)
      (by decide) (by decide),
    by decide, by decide,
    save_opportunity_capacity_and_eviction.2.1 C3fullStore C3opp3 (by decide) (by decide)⟩

/-- C6 counterexample: on Scenario A's pools the scanner computes
`profit_percentage = 1/100` exactly (it divides the price gap by the
LOWER price), which is 0.0100, not approximately 0.0099: it is not within
half a unit in the fourth decimal place of 0.0099. -/
theorem scenario_a_profit_not_0099 :
    ((OpportunityScanner.calculate_price_differences [scanPool1, scanPool2] tokA tokB).map
        PriceDiff.profit_percentage = [1 / 100])
    ∧ ¬ (|(1 : Rat) / 100 - 99 / 10000| ≤ 5 / 100000) := by
  constructor
  · norm_num [OpportunityScanner.calculate_price_differences, pairCombos,
      sortByProfitDesc, insertByProfitDesc, Pool.get_price,
      scanPool1, scanPool2, basePool, tokA, tokB]
  · rw [show ((1 : Rat) / 100 - 99 / 10000) = 1 / 10000 by norm_num,
      abs_of_pos (by norm_num : (0 : Rat) < 1 / 10000)]
    norm_num

/-- C6 (amended): on Scenario A's pools the scanner's computed
`profit_percentage` is exactly 0.01 (1.00%), the opportunity constructor
reproduces the same figure, and with a 0.5% minimum profit threshold the
combination is retained by the scanner's filter. -/
theorem scenario_a_profit_exact_one_percent :
    ((OpportunityScanner.calculate_price_differences [scanPool1, scanPool2] tokA tokB).map
        PriceDiff.profit_percentage = [1 / 100])
    ∧ (OpportunityScanner.profitable_price_differences (5 / 1000)
        [scanPool1, scanPool2] tokA tokB).length = 1
    ∧ (ArbitrageOpportunity.new 0 "x" tokA tokB scanPool1 scanPool2).profit_percentage
        = 1 / 100 := by
  refine ⟨?_, ?_, ?_⟩
  · norm_num [OpportunityScanner.calculate_price_differences, pairCombos,
      sortByProfitDesc, insertByProfitDesc, Pool.get_price,
      scanPool1, scanPool2, basePool, tokA, tokB]
  · norm_num [OpportunityScanner.profitable_price_differences,
      OpportunityScanner.calculate_price_differences, pairCombos,
      sortByProfitDesc, insertByProfitDesc, Pool.get_price,
      scanPool1, scanPool2, basePool, tokA, tokB]
  · norm_num [ArbitrageOpportunity.new, Pool.get_price,
      scanPool1, scanPool2, basePool, tokA, tokB]

end SolArb
